import Mathlib

/-!
Shallow embedding of the FixIt campus-reporting client (Supabase variant)
and proofs about its report-lifecycle, assignment, collaboration-log,
upvote and notification logic.

The definitions mirror, function by function, the handlers in
`frontend/app/reports/[id].tsx` (report detail screen),
`frontend/app/campus-reports.tsx` (public list with upvotes) and the tab
layout's `checkNotifications` poll.  Timestamps are modelled as `Nat`
(milliseconds since epoch); every Supabase `.update()` call is one atomic
write and is modelled as a single function producing the new row value.
-/

/-- Equality of handler results is decidable, so concrete runs can be
checked by evaluation. -/
def exceptDecEq {ε α : Type} [DecidableEq ε] [DecidableEq α] :
    (a b : Except ε α) → Decidable (a = b)
  | Except.error e, Except.error f =>
    if h : e = f then isTrue (congrArg Except.error h)
    else isFalse (fun hh => h (Except.error.inj hh))
  | Except.error _, Except.ok _ => isFalse (fun hh => Except.noConfusion hh)
  | Except.ok _, Except.error _ => isFalse (fun hh => Except.noConfusion hh)
  | Except.ok a, Except.ok b =>
    if h : a = b then isTrue (congrArg Except.ok h)
    else isFalse (fun hh => h (Except.ok.inj hh))

instance {ε α : Type} [DecidableEq ε] [DecidableEq α] : DecidableEq (Except ε α) :=
  exceptDecEq

namespace FixIt

/-! ## Report-detail screen (`frontend/app/reports/[id].tsx`) -/

/-- One entry of the `status_notes` array: `{ status, note, createdAt }`. -/
structure StatusNote where
  status : String
  note : String
  createdAt : Nat
deriving DecidableEq, Repr

/-- The mutable fields of one `reports` row touched by the detail screen.
`status` is kept as a `String` exactly as it is at runtime (the database
permits `pending`, `in-progress`, `completed`, `resolved`, `rejected`). -/
structure Report where
  status : String
  assignedTo : Option String
  assignedToName : Option String
  wasEverAssigned : Bool
  assignmentNote : Option String
  rejectionNote : Option String
  statusNotes : List StatusNote
  updatedAt : Nat
deriving DecidableEq, Repr

/-- Client-side refusals: every early return that shows an error `Alert`
and performs no write. -/
inductive OpError where
  | validationError (msg : String)
deriving DecidableEq, Repr

/-- Leading and trailing whitespace removed from a character list. -/
def trimChars (l : List Char) : List Char :=
  ((l.dropWhile Char.isWhitespace).reverse.dropWhile Char.isWhitespace).reverse

/-- JavaScript `String.prototype.trim()`: strip whitespace from both ends.
(Implemented over the character list so concrete inputs evaluate.) -/
def jsTrim (s : String) : String :=
  String.mk (trimChars s.data)

/-- ASCII lower-casing of one character. -/
def lowerChar (c : Char) : Char :=
  if 65 ≤ c.toNat ∧ c.toNat ≤ 90 then Char.ofNat (c.toNat + 32) else c

/-- JavaScript `String.prototype.toLowerCase()` restricted to ASCII — enough
for the status tokens the code compares against. -/
def jsToLower (s : String) : String :=
  String.mk (s.data.map lowerChar)

/-- JavaScript `value || default` on an optional string: `undefined`,
`null` and the empty string are all falsy. -/
def jsOrDefault (value : Option String) (default : String) : String :=
  match value with
  | none => default
  | some s => if s = "" then default else s

/-- Status normalization in the detail screen's `load`:
`reportData.status === 'resolved' ? 'completed' : (reportData.status || 'pending')`. -/
def loadStatus (stored : Option String) : String :=
  match stored with
  | some s => if s = "resolved" then "completed" else (if s = "" then "pending" else s)
  | none => "pending"

/-- Handler `handleAssignToStaff`: refuses an empty staff selection, otherwise issues one
atomic update setting `assigned_to`, `status = 'in-progress'`,
`assignment_note` (`null` when the note text is empty) and `updated_at`.
The source performs no check on the report's current status and does not
touch `assigned_to_name` or `was_ever_assigned`. -/
def handleAssignToStaff (selectedStaffId : String) (assignmentNote : String)
    (now : Nat) (r : Report) : Except OpError Report :=
  if selectedStaffId = "" then
    Except.error (OpError.validationError "Please select a staff member")
  else
    Except.ok { r with
      assignedTo := some selectedStaffId,
      status := "in-progress",
      assignmentNote := if assignmentNote = "" then none else some assignmentNote,
      updatedAt := now }

/-- Handler `handleRejectReport`: refuses a blank (trim-empty) rejection note, otherwise
issues one atomic update setting `status = 'rejected'`, `rejection_note`
(stored untrimmed) and `updated_at`. -/
def handleRejectReport (rejectionNote : String) (now : Nat) (r : Report) :
    Except OpError Report :=
  if jsTrim rejectionNote = "" then
    Except.error (OpError.validationError "Please provide a rejection reason")
  else
    Except.ok { r with
      status := "rejected",
      rejectionNote := some rejectionNote,
      updatedAt := now }

/-- The TypeScript type `Report['status']` of the `updateStatus` parameter:
`'pending' | 'in-progress' | 'completed'`. -/
inductive UiStatus where
  | pending
  | inProgress
  | completed
deriving DecidableEq, Repr

/-- The string a `UiStatus` value denotes. -/
def UiStatus.toDb : UiStatus → String
  | .pending => "pending"
  | .inProgress => "in-progress"
  | .completed => "completed"

/-- Function `updateStatus`: one update writing `status = newStatus` and `updated_at`,
with no validation of the edge being taken.  (This function has no call
site anywhere in the repository; the buttons use the note modal instead.) -/
def updateStatus (newStatus : UiStatus) (now : Nat) (r : Report) : Report :=
  { r with status := newStatus.toDb, updatedAt := now }

/-- The note modal's Save handler: refuses a trim-empty note, otherwise issues
one atomic update appending `{ status: statusToUpdateAfterNote || report.status,
note: note.trim(), createdAt }` to `status_notes` while also writing
`status = statusToUpdateAfterNote || report.status` and `updated_at`. -/
def saveStatusNote (note : String) (statusToUpdateAfterNote : Option String)
    (now : Nat) (r : Report) : Except OpError Report :=
  if jsTrim note = "" then
    Except.error (OpError.validationError "Please enter a note")
  else
    let st := statusToUpdateAfterNote.getD r.status
    Except.ok { r with
      statusNotes := r.statusNotes ++ [{ status := st, note := jsTrim note, createdAt := now }],
      status := st,
      updatedAt := now }

/-- One successful write by a handler that is reachable from the detail
screen's UI.  `updateStatus` is excluded because it is dead code (no call
site); the Save handler's `statusToUpdateAfterNote` ranges over the
TypeScript type `'in-progress' | 'completed' | null`. -/
inductive Step : Report → Report → Prop
  | assign (selectedStaffId assignmentNote : String) (now : Nat) (r r' : Report) :
      handleAssignToStaff selectedStaffId assignmentNote now r = Except.ok r' →
      Step r r'
  | reject (rejectionNote : String) (now : Nat) (r r' : Report) :
      handleRejectReport rejectionNote now r = Except.ok r' →
      Step r r'
  | save (note : String) (target : Option String) (now : Nat) (r r' : Report) :
      (target = none ∨ target = some "in-progress" ∨ target = some "completed") →
      saveStatusNote note target now r = Except.ok r' →
      Step r r'

/-- The invariant of interest for the completed-needs-a-note claim. -/
def completedHasNote (r : Report) : Prop :=
  r.status = "completed" → ∃ n ∈ r.statusNotes, n.status = "completed"

/-! ## Campus-reports screen (`frontend/app/campus-reports.tsx`) -/

/-- The four badge statuses of the campus-reports screen. -/
inductive Status where
  | pending
  | inProgress
  | completed
  | rejected
deriving DecidableEq, Repr

/-- Function `normalizeStatus` from `campus-reports.tsx`, token lists verbatim. -/
def normalizeStatus (value : Option String) : Status :=
  let v := jsToLower (jsTrim (jsOrDefault value "pending"))
  if v ∈ ["in-progress", "inprogress", "in_progress", "progress"] then Status.inProgress
  else if v ∈ ["complete", "completed", "resolved", "done", "closed", "success"] then Status.completed
  else if v ∈ ["rejected", "deny", "denied"] then Status.rejected
  else if v ∈ ["pending", "new", "open", "created"] then Status.pending
  else Status.pending

/-- Every status token `normalizeStatus` recognizes (union of its four lists). -/
def recognizedTokens : List String :=
  ["in-progress", "inprogress", "in_progress", "progress",
   "complete", "completed", "resolved", "done", "closed", "success",
   "rejected", "deny", "denied",
   "pending", "new", "open", "created"]

/-- The fields of a list item relevant to the upvote handler. -/
structure ReportItem where
  id : String
  status : Status
  upvotesCount : Option Int
  hasUpvoted : Bool
deriving DecidableEq, Repr

/-- The optimistic per-item update in `handleUpvote`'s `setReports` call. -/
def optimisticToggle (reportId : String) (r : ReportItem) : ReportItem :=
  if r.id = reportId then
    { r with
      hasUpvoted := !r.hasUpvoted,
      upvotesCount := some ((r.upvotesCount.getD 0) + (if !r.hasUpvoted then 1 else -1)) }
  else r

/-- What one call of `handleUpvote` does: the new local list, and the
`toggle_upvote` remote procedure call it issued, if any.  Server-side upvote
membership and `upvotes_count` can change only through that call. -/
structure UpvoteEffect where
  reports : List ReportItem
  rpcCall : Option (String × String)
deriving DecidableEq, Repr

/-- Handler `handleUpvote`: returns untouched with no remote call when there is no
logged-in user or when the targeted report's status is `completed` (the
guard `if (report?.status === 'completed') return` — the same condition
also renders the button `disabled`); otherwise applies the optimistic
toggle and issues `toggle_upvote(reportId, userId)`. -/
def handleUpvote (user : Option String) (reportId : String)
    (reports : List ReportItem) : UpvoteEffect :=
  match user with
  | none => { reports := reports, rpcCall := none }
  | some uid =>
    match reports.find? (fun r => r.id = reportId) with
    | some rep =>
      if rep.status = Status.completed then
        { reports := reports, rpcCall := none }
      else
        { reports := reports.map (optimisticToggle reportId),
          rpcCall := some (reportId, uid) }
    | none =>
      { reports := reports.map (optimisticToggle reportId),
        rpcCall := some (reportId, uid) }

/-! ## Assignment balancer (`loadStaffMembers` in `reports/[id].tsx`) -/

/-- One row of the staff query (`role = 'staff'`, ordered ascending by name). -/
structure StaffRow where
  name : String
  staffId : String
deriving DecidableEq, Repr

/-- One row of the workload query (`assigned_to`, `status` of every report
with a non-null assignee). -/
structure AssignRow where
  assignedTo : Option String
  status : String
deriving DecidableEq, Repr

/-- A staff row together with its computed workload. -/
structure StaffWithWorkload where
  staff : StaffRow
  pendingCount : Nat
deriving DecidableEq, Repr

/-- Workload `pendingCount` for one staff member: reports with `assigned_to ===
staff.staff_id`, then those with `status === 'in-progress'`, counted. -/
def pendingCountFor (reportsData : List AssignRow) (staff : StaffRow) : Nat :=
  ((reportsData.filter (fun r => r.assignedTo = some staff.staffId)).filter
    (fun r => r.status = "in-progress")).length

/-- Insert into a load-sorted list, before the first element of load ≥ the
new one.  Together with `sortByLoad` this is a stable ascending sort — the
semantics ECMAScript guarantees for
`staffWithWorkload.sort((a, b) => a.pendingCount - b.pendingCount)`. -/
def insertByLoad (x : StaffWithWorkload) : List StaffWithWorkload → List StaffWithWorkload
  | [] => [x]
  | y :: ys =>
    if x.pendingCount ≤ y.pendingCount then x :: y :: ys
    else y :: insertByLoad x ys

/-- Stable ascending insertion sort by `pendingCount`. -/
def sortByLoad : List StaffWithWorkload → List StaffWithWorkload
  | [] => []
  | x :: xs => insertByLoad x (sortByLoad xs)

/-- Function `loadStaffMembers`: pair every staff row (as delivered by the database,
name-ascending) with its workload, then sort ascending by workload. -/
def loadStaffMembers (staffData : List StaffRow) (reportsData : List AssignRow) :
    List StaffWithWorkload :=
  sortByLoad (staffData.map (fun s =>
    { staff := s, pendingCount := pendingCountFor reportsData s }))

/-! ## Activity notifier (`checkNotifications` in the tab layout) -/

/-- The three user roles of the `users` table. -/
inductive Role where
  | student
  | staff
  | admin
deriving DecidableEq, Repr

/-- The fields of the logged-in user that `checkNotifications` reads. -/
structure NotifUser where
  id : String
  role : Role
  staffId : String
  studentId : String
deriving DecidableEq, Repr

/-- The fields of a report row that `checkNotifications` reads. -/
structure NotifReport where
  assignedTo : Option String
  studentId : Option String
  updatedAt : Nat
deriving DecidableEq, Repr

/-- Function `checkNotifications`: filter the reports by role (staff → assigned to
them, student → created by them, admin → all), read the stored last-seen
checkpoint (epoch when absent), and count rows with
`new Date(r.updated_at) > lastSeen` — strictly greater. -/
def checkNotifications (user : NotifUser) (rows : List NotifReport)
    (lastSeenStored : Option Nat) : Nat :=
  let data : List NotifReport :=
    match user.role with
    | Role.staff => rows.filter (fun r => r.assignedTo = some user.staffId)
    | Role.student => rows.filter (fun r => r.studentId = some user.studentId)
    | Role.admin => rows
  let lastSeen := lastSeenStored.getD 0
  (data.filter (fun r => lastSeen < r.updatedAt)).length

/-- Modelled from the spec: `unseenCount` is the number of reports relevant
to the user (resolver → reports currently assigned to them, submitter →
reports they created, coordinator → all reports) whose last-modified
timestamp is strictly greater than the user's checkpoint.  Written from the
spec's words, to be compared with `checkNotifications`. -/
def specUnseenCount (user : NotifUser) (rows : List NotifReport)
    (checkpoint : Nat) : Nat :=
  let relevant : List NotifReport :=
    match user.role with
    | Role.staff => rows.filter (fun r => r.assignedTo = some user.staffId)
    | Role.student => rows.filter (fun r => r.studentId = some user.studentId)
    | Role.admin => rows
  (relevant.filter (fun r => checkpoint < r.updatedAt)).length

/-- Modelled from the spec: the fixed transition graph of §4.1 —
`pending → in-progress`, `in-progress → completed`, `pending → rejected`,
and no other edge.  Used to state the transition-validation claim. -/
def legalEdge (current requested : String) : Bool :=
  (current = "pending" && requested = "in-progress") ||
  (current = "in-progress" && requested = "completed") ||
  (current = "pending" && requested = "rejected")

/-! ## Concrete example rows used by witnesses and counterexamples -/

/-- A freshly created report: the schema defaults are `status 'pending'`,
`was_ever_assigned FALSE`, `status_notes '[]'`. -/
def exPending : Report :=
  { status := "pending", assignedTo := none, assignedToName := none,
    wasEverAssigned := false, assignmentNote := none, rejectionNote := none,
    statusNotes := [], updatedAt := 0 }

/-- A report already in terminal status `completed`. -/
def exCompleted : Report :=
  { exPending with status := "completed" }

/-- The row `handleAssignToStaff "5551" "" 7` produces from `exPending`. -/
def exAssigned : Report :=
  { exPending with
    assignedTo := some "5551", status := "in-progress",
    assignmentNote := none, updatedAt := 7 }

/-- The row the Save handler produces from `exPending` for note `"fixed"`
with target `completed` at time 5. -/
def exCompletedViaSave : Report :=
  { exPending with
    statusNotes := [{ status := "completed", note := "fixed", createdAt := 5 }],
    status := "completed", updatedAt := 5 }

/-- The spec's candidate-ordering example: resolvers Al, Bea, Cy, Do as the
name-ascending staff query delivers them. -/
def exStaffData : List StaffRow :=
  [{ name := "Al", staffId := "1" }, { name := "Bea", staffId := "2" },
   { name := "Cy", staffId := "3" }, { name := "Do", staffId := "4" }]

/-- Workload rows giving Bea load 3, Al load 1, Cy load 1, Do load 2. -/
def exReportsData : List AssignRow :=
  [{ assignedTo := some "2", status := "in-progress" },
   { assignedTo := some "2", status := "in-progress" },
   { assignedTo := some "2", status := "in-progress" },
   { assignedTo := some "1", status := "in-progress" },
   { assignedTo := some "3", status := "in-progress" },
   { assignedTo := some "4", status := "in-progress" },
   { assignedTo := some "4", status := "in-progress" }]

/-- Two resolvers with the same name — a list the name-ascending staff query
can deliver in either order — whose staff identifiers descend. -/
def exTieStaff : List StaffRow :=
  [{ name := "Bo", staffId := "7" }, { name := "Bo", staffId := "3" }]

/-- A completed item on the campus-reports screen. -/
def exItemCompleted : ReportItem :=
  { id := "t1", status := Status.completed, upvotesCount := some 2, hasUpvoted := false }

/-! ## C1 — effect and precondition of assignment -/

/-- C1, counterexample.  The claim says assignment sets the assignee display
name and `wasEverAssigned`, and fails with `InvalidState` on a non-pending
report, changing nothing.  On the code, assigning the completed report
`exCompleted` succeeds and rewrites it, and assigning the pending report
`exPending` leaves `wasEverAssigned = false` and `assignedToName = none`. -/
theorem C1_counterexample :
    exCompleted.status ≠ "pending" ∧
    handleAssignToStaff "5551" "check" 7 exCompleted =
      Except.ok { exCompleted with
        assignedTo := some "5551", status := "in-progress",
        assignmentNote := some "check", updatedAt := 7 } ∧
    handleAssignToStaff "5551" "check" 7 exPending =
      Except.ok { exPending with
        assignedTo := some "5551", status := "in-progress",
        assignmentNote := some "check", updatedAt := 7 } ∧
    ({ exPending with
        assignedTo := some "5551", status := "in-progress",
        assignmentNote := some "check", updatedAt := 7 } : Report).wasEverAssigned = false ∧
    ({ exPending with
        assignedTo := some "5551", status := "in-progress",
        assignmentNote := some "check", updatedAt := 7 } : Report).assignedToName = none := by
  refine ⟨by decide, rfl, rfl, rfl, rfl⟩

/-- C1, amended.  Given a non-empty staff selection, assignment issues one
atomic update setting the assignee reference, status `in-progress`, the
assignment note (`null` when empty) and the last-modified stamp,
regardless of the report's current status; it never touches the assignee
display name or `wasEverAssigned`.  An empty selection fails with a
validation error and writes nothing. -/
theorem C1_theorem :
    (∀ (selectedStaffId assignmentNote : String) (now : Nat) (r : Report),
      handleAssignToStaff selectedStaffId assignmentNote now r =
        if selectedStaffId = "" then
          Except.error (OpError.validationError "Please select a staff member")
        else
          Except.ok { r with
            assignedTo := some selectedStaffId,
            status := "in-progress",
            assignmentNote := if assignmentNote = "" then none else some assignmentNote,
            updatedAt := now }) ∧
    (∀ (selectedStaffId assignmentNote : String) (now : Nat) (r r' : Report),
      handleAssignToStaff selectedStaffId assignmentNote now r = Except.ok r' →
      r'.wasEverAssigned = r.wasEverAssigned ∧
      r'.assignedToName = r.assignedToName ∧
      r'.status = "in-progress" ∧
      r'.assignedTo = some selectedStaffId ∧
      r'.updatedAt = now) := by
  constructor
  · intro selectedStaffId assignmentNote now r
    rfl
  · intro selectedStaffId assignmentNote now r r' h
    unfold handleAssignToStaff at h
    split at h
    · exact absurd h (by simp)
    · injection h with h
      subst h
      exact ⟨rfl, rfl, rfl, rfl, rfl⟩

/-- C1, witness for the amended theorem at a concrete input. -/
theorem C1_witness :
    handleAssignToStaff "5551" "" 7 exPending = Except.ok exAssigned ∧
    exAssigned.wasEverAssigned = exPending.wasEverAssigned ∧
    exAssigned.assignedToName = exPending.assignedToName ∧
    exAssigned.status = "in-progress" ∧
    exAssigned.assignedTo = some "5551" ∧
    exAssigned.updatedAt = 7 :=
  ⟨rfl, C1_theorem.2 "5551" "" 7 exPending exAssigned rfl⟩

/-! ## C4 — transition validation -/

/-- C4, counterexample.  The edge `completed → pending` is not in the fixed
graph, yet `updateStatus` applies it: no `InvalidTransition` failure, and
the report is changed. -/
theorem C4_counterexample :
    legalEdge "completed" "pending" = false ∧
    updateStatus UiStatus.pending 9 exCompleted =
      { exCompleted with status := "pending", updatedAt := 9 } ∧
    ({ exCompleted with status := "pending", updatedAt := 9 } : Report).status ≠
      exCompleted.status := by
  refine ⟨by decide, rfl, by decide⟩

/-- C4, amended.  `updateStatus` performs no validation whatsoever: it writes
the requested status and a fresh last-modified stamp unconditionally,
whether or not the edge from the current status is in the fixed graph. -/
theorem C4_theorem :
    ∀ (newStatus : UiStatus) (now : Nat) (r : Report),
      updateStatus newStatus now r = { r with status := newStatus.toDb, updatedAt := now } :=
  fun _ _ _ => rfl

/-! ## C5 — rejection requires a non-empty note -/

/-- C5, confirmed.  Rejecting with a trim-empty note fails with a validation
error and writes nothing; rejecting with a non-empty note issues one atomic
update setting status `rejected`, the rejection note and the last-modified
stamp.  The spec scenario: note `"duplicate"` yields status `rejected` with
`rejectionNote = "duplicate"`, while a whitespace-only note fails. -/
theorem C5_theorem :
    (∀ (rejectionNote : String) (now : Nat) (r : Report),
      handleRejectReport rejectionNote now r =
        if jsTrim rejectionNote = "" then
          Except.error (OpError.validationError "Please provide a rejection reason")
        else
          Except.ok { r with
            status := "rejected",
            rejectionNote := some rejectionNote,
            updatedAt := now }) ∧
    handleRejectReport "duplicate" 3 exPending =
      Except.ok { exPending with
        status := "rejected", rejectionNote := some "duplicate", updatedAt := 3 } ∧
    handleRejectReport "   " 3 exPending =
      Except.error (OpError.validationError "Please provide a rejection reason") := by
  refine ⟨fun _ _ _ => rfl, by decide, by decide⟩

/-! ## C10 — the shared status-note save handler -/

/-- C10, confirmed.  The Save handler (used for both the `in-progress`
self-start and the `completed` transition) refuses a trim-empty note with
no status change and no append; with a non-empty note it appends exactly
one entry whose status equals the target and sets the report status to that
target in the same write — so a non-empty note is required even for the
pending → in-progress self-start. -/
theorem C10_theorem :
    (∀ (note target : String) (now : Nat) (r : Report),
      saveStatusNote note (some target) now r =
        if jsTrim note = "" then
          Except.error (OpError.validationError "Please enter a note")
        else
          Except.ok { r with
            statusNotes := r.statusNotes ++
              [{ status := target, note := jsTrim note, createdAt := now }],
            status := target,
            updatedAt := now }) ∧
    saveStatusNote "   " (some "in-progress") 4 exPending =
      Except.error (OpError.validationError "Please enter a note") ∧
    saveStatusNote "on it" (some "in-progress") 4 exPending =
      Except.ok { exPending with
        statusNotes := [{ status := "in-progress", note := "on it", createdAt := 4 }],
        status := "in-progress", updatedAt := 4 } := by
  refine ⟨fun _ _ _ _ => rfl, by decide, by decide⟩

/-! ## C3 — completed implies a completed status note -/

/-- Every UI-reachable write preserves the invariant that a `completed`
report carries a `completed` status note: assignment and rejection never
write `completed`, and the Save handler appends, in the very write that
sets the status, a note carrying that same status. -/
theorem step_preserves_completedHasNote {r r' : Report} (hstep : Step r r')
    (_hr : completedHasNote r) : completedHasNote r' := by
  cases hstep with
  | assign selectedStaffId assignmentNote now r r' h =>
    unfold handleAssignToStaff at h
    split at h
    · exact absurd h (by simp)
    · injection h with h
      subst h
      intro hcon
      exact absurd hcon (by decide : ("in-progress" : String) ≠ "completed")
  | reject rejectionNote now r r' h =>
    unfold handleRejectReport at h
    split at h
    · exact absurd h (by simp)
    · injection h with h
      subst h
      intro hcon
      exact absurd hcon (by decide : ("rejected" : String) ≠ "completed")
  | save note target now r r' htarget h =>
    unfold saveStatusNote at h
    split at h
    · exact absurd h (by simp)
    · injection h with h
      subst h
      intro hcon
      exact ⟨{ status := target.getD r.status, note := jsTrim note, createdAt := now },
        List.mem_append_right _ (List.mem_singleton_self _), hcon⟩

/-- C3, confirmed.  The `completed` transition and the status-note append are
one write: with target `completed` the Save handler either refuses (blank
note, nothing written) or produces, atomically, the report with status
`completed` and exactly one appended note whose status is `completed`.
Consequently, along every chain of UI-reachable writes, a report that
starts with the invariant `completedHasNote` (in particular any freshly
created `pending` report) never reaches `completed` without at least one
status-note entry whose status equals `completed`. -/
theorem C3_theorem :
    (∀ (note : String) (now : Nat) (r : Report),
      saveStatusNote note (some "completed") now r =
        if jsTrim note = "" then
          Except.error (OpError.validationError "Please enter a note")
        else
          Except.ok { r with
            statusNotes := r.statusNotes ++
              [{ status := "completed", note := jsTrim note, createdAt := now }],
            status := "completed",
            updatedAt := now }) ∧
    (∀ r0 r : Report, completedHasNote r0 →
      Relation.ReflTransGen Step r0 r → completedHasNote r) := by
  refine ⟨fun _ _ _ => rfl, ?_⟩
  intro r0 r h0 hreach
  induction hreach with
  | refl => exact h0
  | tail _ hstep ih => exact step_preserves_completedHasNote hstep ih

/-- C3, witness: the save of note `"fixed"` with target `completed` is one
reachable write from a fresh pending report, and the invariant holds at the
result. -/
theorem C3_witness :
    completedHasNote exPending ∧
    Relation.ReflTransGen Step exPending exCompletedViaSave ∧
    completedHasNote exCompletedViaSave :=
  have h0 : completedHasNote exPending := fun hcon => absurd hcon (by decide)
  have hstep : Step exPending exCompletedViaSave :=
    Step.save "fixed" (some "completed") 5 exPending exCompletedViaSave
      (Or.inr (Or.inr rfl)) (by decide)
  ⟨h0, Relation.ReflTransGen.single hstep,
    C3_theorem.2 exPending exCompletedViaSave h0 (Relation.ReflTransGen.single hstep)⟩

/-! ## C6 — upvoting a completed report is blocked -/

/-- C6, confirmed.  When the targeted report is `completed`, `handleUpvote`
takes its guard branch (modelled as the `Locked` refusal the spec names):
the local list is returned untouched and no `toggle_upvote` remote call is
issued, so server-side upvote membership and `upvotes_count` are unchanged.
The upvote button is additionally rendered disabled on that condition. -/
theorem C6_theorem (uid reportId : String) (reports : List ReportItem)
    (rep : ReportItem)
    (hfind : reports.find? (fun r => r.id = reportId) = some rep)
    (hcompleted : rep.status = Status.completed) :
    handleUpvote (some uid) reportId reports =
      { reports := reports, rpcCall := none } := by
  unfold handleUpvote
  rw [hfind]
  simp [hcompleted]

/-- C6, witness at a concrete completed report. -/
theorem C6_witness :
    [exItemCompleted].find? (fun r => r.id = "t1") = some exItemCompleted ∧
    exItemCompleted.status = Status.completed ∧
    handleUpvote (some "u1") "t1" [exItemCompleted] =
      { reports := [exItemCompleted], rpcCall := none } :=
  ⟨by decide, by decide,
    C6_theorem "u1" "t1" [exItemCompleted] exItemCompleted (by decide) (by decide)⟩

/-! ## C7 — the unseen-activity count -/

/-- C7, confirmed.  `checkNotifications` equals the spec's description of
`unseenCount` — the number of reports relevant to the user (staff: assigned
to them; student: created by them; admin: all) whose last-modified
timestamp is strictly greater than the checkpoint (epoch when no checkpoint
is stored) — and a report whose timestamp exactly equals the checkpoint is
never counted. -/
theorem C7_theorem :
    (∀ (user : NotifUser) (rows : List NotifReport) (checkpoint : Nat),
      checkNotifications user rows (some checkpoint) = specUnseenCount user rows checkpoint) ∧
    (∀ (user : NotifUser) (rows : List NotifReport),
      checkNotifications user rows none = specUnseenCount user rows 0) ∧
    (∀ (user : NotifUser) (rows : List NotifReport) (r : NotifReport),
      checkNotifications user (r :: rows) (some r.updatedAt) =
        checkNotifications user rows (some r.updatedAt)) := by
  refine ⟨fun user rows checkpoint => rfl, fun user rows => rfl, ?_⟩
  intro user rows r
  cases hrole : user.role <;>
    simp [checkNotifications, hrole, List.filter_cons] <;>
    split <;>
    simp [List.filter_cons, Nat.lt_irrefl]

/-! ## C8 — the legacy alias is read-normalized, never written -/

/-- C8, confirmed.  A stored status of `resolved` is presented to business
logic as `completed` by both read paths, and no reachable write operation
ever stores `resolved`: the detail-screen `load` never produces it, every
UI-reachable write (`Step`) preserves its absence, and `updateStatus` can
only write `pending`, `in-progress` or `completed`. -/
theorem C8_theorem :
    (∀ stored : Option String, loadStatus stored ≠ "resolved") ∧
    loadStatus (some "resolved") = "completed" ∧
    normalizeStatus (some "resolved") = Status.completed ∧
    (∀ r r' : Report, Step r r' → r.status ≠ "resolved" → r'.status ≠ "resolved") ∧
    (∀ (newStatus : UiStatus) (now : Nat) (r : Report),
      (updateStatus newStatus now r).status ≠ "resolved") := by
  refine ⟨?_, by decide, by decide, ?_, ?_⟩
  · rintro (_ | s)
    · decide
    · simp only [loadStatus]
      by_cases h1 : s = "resolved"
      · simp [h1]
      · rw [if_neg h1]
        by_cases h2 : s = ""
        · simp [h2]
        · rw [if_neg h2]
          exact h1
  · intro r r' hstep hr
    cases hstep with
    | assign selectedStaffId assignmentNote now r r' h =>
      unfold handleAssignToStaff at h
      split at h
      · exact absurd h (by simp)
      · injection h with h
        subst h
        show ("in-progress" : String) ≠ "resolved"
        decide
    | reject rejectionNote now r r' h =>
      unfold handleRejectReport at h
      split at h
      · exact absurd h (by simp)
      · injection h with h
        subst h
        show ("rejected" : String) ≠ "resolved"
        decide
    | save note target now r r' htarget h =>
      unfold saveStatusNote at h
      split at h
      · exact absurd h (by simp)
      · injection h with h
        subst h
        rcases htarget with rfl | rfl | rfl
        · exact hr
        · show ("in-progress" : String) ≠ "resolved"
          decide
        · show ("completed" : String) ≠ "resolved"
          decide
  · intro newStatus now r
    cases newStatus
    · show ("pending" : String) ≠ "resolved"
      decide
    · show ("in-progress" : String) ≠ "resolved"
      decide
    · show ("completed" : String) ≠ "resolved"
      decide

/-- C8, witness: a concrete reachable write out of a fresh pending report
keeps the status away from the legacy alias. -/
theorem C8_witness :
    Step exPending exAssigned ∧
    exPending.status ≠ "resolved" ∧
    exAssigned.status ≠ "resolved" :=
  have hstep : Step exPending exAssigned :=
    Step.assign "5551" "" 7 exPending exAssigned (by decide)
  ⟨hstep, by decide, C8_theorem.2.2.2.1 exPending exAssigned hstep (by decide)⟩

/-! ## C9 — unrecognized stored status values -/

/-- C9, counterexample.  The claim says an unrecognized stored status fails
the read with `ValidationError`; on the code, `normalizeStatus` is total
and silently maps the unrecognized value `"mystery-status"` to `pending`. -/
theorem C9_counterexample :
    ("mystery-status" ∉ recognizedTokens) ∧
    normalizeStatus (some "mystery-status") = Status.pending := by
  refine ⟨by decide, by decide⟩

/-- C9, amended.  The read path never fails: every stored status value whose
trimmed, lower-cased form is outside the recognized token lists is silently
normalized to `pending`. -/
theorem C9_theorem (v : String) (h : jsToLower (jsTrim v) ∉ recognizedTokens) :
    normalizeStatus (some v) = Status.pending := by
  by_cases hv : v = ""
  · subst hv
    decide
  · have h1 : jsToLower (jsTrim v) ∉
        (["in-progress", "inprogress", "in_progress", "progress"] : List String) := by
      intro hm
      refine h ?_
      simp [recognizedTokens]
      simp at hm
      tauto
    have h2 : jsToLower (jsTrim v) ∉
        (["complete", "completed", "resolved", "done", "closed", "success"] : List String) := by
      intro hm
      refine h ?_
      simp [recognizedTokens]
      simp at hm
      tauto
    have h3 : jsToLower (jsTrim v) ∉ (["rejected", "deny", "denied"] : List String) := by
      intro hm
      refine h ?_
      simp [recognizedTokens]
      simp at hm
      tauto
    have h4 : jsToLower (jsTrim v) ∉ (["pending", "new", "open", "created"] : List String) := by
      intro hm
      refine h ?_
      simp [recognizedTokens]
      simp at hm
      tauto
    simp only [normalizeStatus, jsOrDefault, if_neg hv, if_neg h1, if_neg h2, if_neg h3, if_neg h4]

/-- C9, witness for the amended theorem at a concrete unrecognized value. -/
theorem C9_witness :
    (jsToLower (jsTrim "unknown-state") ∉ recognizedTokens) ∧
    normalizeStatus (some "unknown-state") = Status.pending :=
  ⟨by decide, C9_theorem "unknown-state" (by decide)⟩

/-! ## C2 — assignment-candidate ordering -/

/-- Members of the insertion result are the inserted element or members of
the original list. -/
theorem mem_insertByLoad (x y : StaffWithWorkload) :
    ∀ l : List StaffWithWorkload, y ∈ insertByLoad x l → y = x ∨ y ∈ l := by
  intro l
  induction l with
  | nil =>
    intro h
    simp only [insertByLoad, List.mem_singleton] at h
    exact Or.inl h
  | cons z zs ih =>
    intro h
    by_cases hc : x.pendingCount ≤ z.pendingCount
    · rw [insertByLoad, if_pos hc] at h
      rcases List.mem_cons.mp h with h1 | h2
      · exact Or.inl h1
      · exact Or.inr h2
    · rw [insertByLoad, if_neg hc] at h
      rcases List.mem_cons.mp h with h1 | h2
      · exact Or.inr (h1 ▸ List.mem_cons_self z zs)
      · rcases ih h2 with h3 | h4
        · exact Or.inl h3
        · exact Or.inr (List.mem_cons_of_mem z h4)

/-- Insertion preserves the ascending-by-load invariant. -/
theorem pairwise_insertByLoad (x : StaffWithWorkload) :
    ∀ l : List StaffWithWorkload,
      List.Pairwise (fun a b => a.pendingCount ≤ b.pendingCount) l →
      List.Pairwise (fun a b => a.pendingCount ≤ b.pendingCount) (insertByLoad x l) := by
  intro l
  induction l with
  | nil =>
    intro _
    simp [insertByLoad]
  | cons z zs ih =>
    intro hp
    rcases List.pairwise_cons.mp hp with ⟨hz, hzs⟩
    by_cases hc : x.pendingCount ≤ z.pendingCount
    · rw [insertByLoad, if_pos hc]
      refine List.Pairwise.cons ?_ hp
      intro y hy
      rcases List.mem_cons.mp hy with rfl | hmem
      · exact hc
      · exact le_trans hc (hz y hmem)
    · rw [insertByLoad, if_neg hc]
      refine List.Pairwise.cons ?_ (ih hzs)
      intro y hy
      rcases mem_insertByLoad x y zs hy with rfl | hmem
      · exact le_of_not_le hc
      · exact hz y hmem

/-- The load-sort produces an ascending-by-load list. -/
theorem sortByLoad_pairwise :
    ∀ l : List StaffWithWorkload,
      List.Pairwise (fun a b => a.pendingCount ≤ b.pendingCount) (sortByLoad l) := by
  intro l
  induction l with
  | nil => simp [sortByLoad]
  | cons x xs ih =>
    rw [sortByLoad]
    exact pairwise_insertByLoad x (sortByLoad xs) ih

/-- Insertion is stable: restricted to any one load value, the list is
unchanged except that an inserted element of that load lands in front. -/
theorem filter_insertByLoad (x : StaffWithWorkload) (k : Nat) :
    ∀ l : List StaffWithWorkload,
      (insertByLoad x l).filter (fun s => s.pendingCount = k) =
        if x.pendingCount = k then
          x :: l.filter (fun s => s.pendingCount = k)
        else
          l.filter (fun s => s.pendingCount = k) := by
  intro l
  induction l with
  | nil =>
    by_cases hxk : x.pendingCount = k <;> simp [insertByLoad, hxk]
  | cons z zs ih =>
    by_cases hc : x.pendingCount ≤ z.pendingCount
    · rw [insertByLoad, if_pos hc]
      by_cases hxk : x.pendingCount = k <;> simp [List.filter_cons, hxk]
    · rw [insertByLoad, if_neg hc]
      have hzx : z.pendingCount < x.pendingCount := Nat.lt_of_not_le hc
      by_cases hzk : z.pendingCount = k
      · have hxk : ¬ x.pendingCount = k := by omega
        simp [List.filter_cons, hzk, hxk, ih]
      · by_cases hxk : x.pendingCount = k <;>
          simp [List.filter_cons, hzk, hxk, ih]

/-- The load-sort is stable: restricted to any one load value the order of
the input is kept verbatim. -/
theorem sortByLoad_filter (k : Nat) :
    ∀ l : List StaffWithWorkload,
      (sortByLoad l).filter (fun s => s.pendingCount = k) =
        l.filter (fun s => s.pendingCount = k) := by
  intro l
  induction l with
  | nil => rfl
  | cons x xs ih =>
    rw [sortByLoad, filter_insertByLoad, ih]
    by_cases hxk : x.pendingCount = k <;> simp [List.filter_cons, hxk]

/-- C2, counterexample.  Two resolvers share the name `"Bo"` and have equal
load 0; the name-ascending staff query may deliver them with identifiers
`"7"` before `"3"`, and the code keeps that order — so the offered order is
not ascending by staff identifier as the claim requires (`"3" < "7"`). -/
theorem C2_counterexample :
    (loadStaffMembers exTieStaff []).map
        (fun s => (s.staff.name, s.pendingCount, s.staff.staffId)) =
      [("Bo", 0, "7"), ("Bo", 0, "3")] ∧
    ("3" : String) < "7" := by
  refine ⟨by decide, ?_⟩
  rw [String.lt_iff_toList_lt]
  decide

/-- C2, amended.  The candidate list is the staff list as delivered by the
name-ascending database query, stably sorted ascending by load: the output
is ascending by load, and within any one load value it preserves the
database's order verbatim (so ties are broken by the database's name
ordering, with no further staff-identifier tie-break).  On the spec's
example — loads [3,1,1,2] for Bea, Al, Cy, Do — the offered order is
Al(1), Cy(1), Do(2), Bea(3). -/
theorem C2_theorem :
    (∀ (staffData : List StaffRow) (reportsData : List AssignRow),
      List.Pairwise (fun a b => a.pendingCount ≤ b.pendingCount)
        (loadStaffMembers staffData reportsData)) ∧
    (∀ (staffData : List StaffRow) (reportsData : List AssignRow) (k : Nat),
      (loadStaffMembers staffData reportsData).filter (fun s => s.pendingCount = k) =
        (staffData.map (fun s =>
          { staff := s, pendingCount := pendingCountFor reportsData s })).filter
            (fun s => s.pendingCount = k)) ∧
    (loadStaffMembers exStaffData exReportsData).map
        (fun s => (s.staff.name, s.pendingCount)) =
      [("Al", 1), ("Cy", 1), ("Do", 2), ("Bea", 3)] := by
  refine ⟨fun staffData reportsData => sortByLoad_pairwise _,
    fun staffData reportsData k => sortByLoad_filter k _, by decide⟩

end FixIt
